import Mathlib

/-!
Verification of the child-reconciliation core of `src/src/core/ReactMultiChild.js`
(the nodeCount-tracking diff engine) and, for the refinement claim, of the
unit-index diff engine in `src/unnamed/part_000`.

The embedding is shallow:
* a JS component instance becomes a `Component` record; the fields relevant to
  the engine (`_mountIndex`, `_nodeCount`, `constructor`, `props`,
  `_rootNodeID`, `_previousSibling`, `_parentComponent`) become record fields,
  with JS `null`/`undefined` modelled as `Option.none`;
* the keyed children maps (`_renderedChildren`, `nextChildren`) become
  association lists `List (String × Component)` in iteration order, `aupsert`
  modelling JS property assignment (replace in place, else append — matching
  JS property-order semantics) and `aerase` modelling `delete`;
* the process-wide update queue, markup queue and reentrancy depth counter
  become an explicit `QState` threaded through the two public entry points;
* calls on the external child collaborators (`mountComponent`,
  `receiveProps`, `unmountComponent`) are recorded in an event trace, so that
  the frame conditions of the spec can be stated;
* fallible paths (`invariant(...)`, JS `TypeError` on a property read of
  `undefined`) return `Except RErr`.
-/

namespace ReactMultiChild

/-- One child component instance as seen by the reconciliation core.
`cid` is the instance identity (JS object identity); `ctor` models the
`constructor` reference compared by `shouldUpdateChild`; `props` the opaque
props value; `mountIndex` models `_mountIndex` (`none` = JS
`null`/`undefined`, i.e. never assigned or unset); `prevSibling` models the
`_previousSibling` link by the sibling's `cid`; `parentLinked` models whether
`_parentComponent` is set. -/
structure Component where
  cid : Nat
  ctor : Nat
  props : Nat
  rootNodeID : String
  nodeCount : Nat
  mountIndex : Option Nat
  prevSibling : Option Nat
  parentLinked : Bool
deriving DecidableEq, Repr

/-- The parent component on which `mountChildren` / `updateChildren` /
`updateTextContent` / `unmountChildren` operate: its root id, its owned
`_renderedChildren` map (`none` = JS `null`/`undefined`), its `_nodeCount`
(`none` = cleared by `unmountChildren`), and its `_firstRenderedChild` link
(by `cid`). -/
structure ParentComponent where
  rootNodeID : String
  renderedChildren : Option (List (String × Component))
  nodeCount : Option Nat
  firstRenderedChild : Option Nat
deriving DecidableEq, Repr

/-- The rendered-children map, reading JS `null`/`undefined` as the empty
map (both enumerate no keys). -/
def ParentComponent.renderedChildrenD (c : ParentComponent) : List (String × Component) :=
  c.renderedChildren.getD []

/-- Association-list lookup: first entry with the given key
(models `map[name]`, `none` = key absent). -/
def alookup {α : Type} : List (String × α) → String → Option α
  | [], _ => none
  | (m, v) :: t, n => if m = n then some v else alookup t n

/-- Association-list update (models JS `map[name] = v`): replaces the first
entry with the key in place, else appends — matching JS property-order
semantics. -/
def aupsert {α : Type} : List (String × α) → String → α → List (String × α)
  | [], n, v => [(n, v)]
  | (m, w) :: t, n, v => if m = n then (n, v) :: t else (m, w) :: aupsert t n v

/-- Association-list delete (models JS `delete map[name]`). -/
def aerase {α : Type} : List (String × α) → String → List (String × α)
  | [], _ => []
  | (m, w) :: t, n => if m = n then t else (m, w) :: aerase t n

/-- The tag of an update record (`ReactMultiChildUpdateTypes`). -/
inductive UpdateType where
  | insertMarkup
  | moveExisting
  | removeNode
  | replaceWithMarkup
  | textContent
deriving DecidableEq, Repr

/-- An update record of the nodeCount-tracking engine, as pushed on
`updateQueue` in `src/src/core/ReactMultiChild.js` lines 76–175. Unused
fields are `none`, matching the explicit `null`s of the source. (`parentNode`
is always `null` at enqueue time and is omitted.) -/
structure UpdateRecord where
  parentID : String
  rtype : UpdateType
  markupIndex : Option Nat
  textContent : Option String
  nodeCount : Option Nat
  fromIndex : Option Nat
  toIndex : Option Nat
deriving DecidableEq, Repr

/-- `enqueueMarkup` record (INSERT_MARKUP), lines 76–88.  The `toIndex`
argument is taken as an `Option` because the caller `createChild` passes the
child's current `_mountIndex` field. -/
def insertRec (pID : String) (mIdx : Nat) (toI : Option Nat) : UpdateRecord :=
  { parentID := pID, rtype := UpdateType.insertMarkup, markupIndex := some mIdx,
    textContent := none, nodeCount := none, fromIndex := none, toIndex := toI }

/-- `enqueueReplaceWithMarkup` record, lines 99–111. -/
def replaceRec (pID : String) (mIdx : Nat) : UpdateRecord :=
  { parentID := pID, rtype := UpdateType.replaceWithMarkup, markupIndex := some mIdx,
    textContent := none, nodeCount := none, fromIndex := none, toIndex := none }

/-- `enqueueMove` record (MOVE_EXISTING), lines 121–133. -/
def moveRec (pID : String) (nc fromI toI : Nat) : UpdateRecord :=
  { parentID := pID, rtype := UpdateType.moveExisting, markupIndex := none,
    textContent := none, nodeCount := some nc, fromIndex := some fromI, toIndex := some toI }

/-- `enqueueRemove` record (REMOVE_NODE), lines 142–154. -/
def removeRec (pID : String) (nc fromI : Nat) : UpdateRecord :=
  { parentID := pID, rtype := UpdateType.removeNode, markupIndex := none,
    textContent := none, nodeCount := some nc, fromIndex := some fromI, toIndex := none }

/-- `enqueueTextContent` record (TEXT_CONTENT), lines 163–175. -/
def textRec (pID : String) (text : String) : UpdateRecord :=
  { parentID := pID, rtype := UpdateType.textContent, markupIndex := none,
    textContent := some text, nodeCount := none, fromIndex := none, toIndex := none }

/-- Trace of calls on the child-instance collaborator capabilities
(`mountComponent` / `unmountComponent` / `receiveProps`), recorded by child
key so frame conditions can be stated. -/
inductive ChildEvent where
  | mounted (name : String)
  | unmounted (name : String)
  | receivedProps (name : String)
deriving DecidableEq, Repr

/-- The key the event concerns. -/
def eventName : ChildEvent → String
  | ChildEvent.mounted n => n
  | ChildEvent.unmounted n => n
  | ChildEvent.receivedProps n => n

/-- Modelled from the spec: the child capability
`mountComponent(rootId, transaction) -> mountImage` (`ReactComponent`, not
under `src/`) produces a markup handle for the child; per spec sections 4.2
and 6 it does not assign the child's `mountIndex` (positional metadata is the
engine's responsibility).  The markup string itself is outside the core's
concern; it is modelled as a deterministic function of the root id and the
child's concrete type. -/
def mountImage (c : Component) (rootID : String) : String :=
  "<" ++ rootID ++ "#" ++ toString c.ctor ++ "/>"

/-- Modelled from the spec: the id-resolution collaborator
(`ReactInstanceHandles.getParentID`, not under `src/`) — given a node
identifier, returns its parent's identifier, i.e. the identifier truncated
before its final separator segment (empty when there is no separator). -/
def getParentID (s : String) : String :=
  String.mk (((s.toList.reverse.dropWhile (fun c => ¬ (c = '.'))).drop 1).reverse)

/-- `idPrefix.charAt(idPrefix.length - 1) === '.'` (line 317). -/
def lastCharIsDot (s : String) : Bool :=
  match s.toList.getLast? with
  | some c => c == '.'
  | none => false

/-- `shouldUpdateChild` (lines 37–39): true iff both children exist (are
truthy) and share the same `constructor`. -/
def shouldUpdateChild (cur next : Option Component) : Bool :=
  match cur, next with
  | some c, some n => c.ctor == n.ctor
  | _, _ => false

/-- `_mountIndex` read as a JS number.  The first pass of `_updateChildren`
assigns every previous child a numeric `_mountIndex`, so during the second
pass this field is `some` for every looked-up previous child; `none` (JS
`undefined`) is defaulted to 0 here. -/
def mountIndexD (c : Component) : Nat :=
  c.mountIndex.getD 0

/-- Recursion of `mountChildren` (lines 212–237) over the children map in
iteration order.  Arguments: remaining entries, the `lastChild` variable and
the running `index` total.  Produces the stored children (with
`_parentComponent` and `_previousSibling` mutations applied — the map holds
the same objects), the mount images, the `mountComponent` events, the final
running total, and the `_firstRenderedChild` assignment if one was made.
Note that `mountChildren` never assigns `_mountIndex`: the source only
advances `index += child._nodeCount` (line 227). -/
def mountChildrenGo (idPref : String) :
    List (String × Component) → Option Component → Nat →
    List (String × Component) × List String × List ChildEvent × Nat × Option Nat
  | [], _, idx => ([], [], [], idx, none)
  | (n, c) :: t, lastChild, idx =>
    let rootID := idPref ++ n
    let img := mountImage c rootID
    let c2 := { c with parentLinked := true, prevSibling := lastChild.map Component.cid }
    let rest := mountChildrenGo idPref t (some c2) (idx + c.nodeCount)
    ((n, c2) :: rest.1, img :: rest.2.1, ChildEvent.mounted n :: rest.2.2.1,
      rest.2.2.2.1,
      if lastChild.isNone then some c2.cid else rest.2.2.2.2)

/-- `mountChildren(component, idPrefix, children, transaction)`
(lines 212–237): mounts every child, stores the map as `_renderedChildren`,
and sets the parent's `_nodeCount` to the running total only when
`component._rootNodeID === idPrefix` (lines 233–235).  Returns the updated
parent, the mount images, and the event trace. -/
def mountChildren (comp : ParentComponent) (idPref : String)
    (children : List (String × Component)) :
    ParentComponent × List String × List ChildEvent :=
  let r := mountChildrenGo idPref children none 0
  ({ comp with
      renderedChildren := some r.1,
      nodeCount := if comp.rootNodeID = idPref then some r.2.2.2.1 else comp.nodeCount,
      firstRenderedChild :=
        match r.2.2.2.2 with
        | some i => some i
        | none => comp.firstRenderedChild },
    r.2.1, r.2.2.1)

/-- Total of the children's `_nodeCount` values (the value `index` reaches in
`mountChildren`). -/
def totalNodeCount (l : List (String × Component)) : Nat :=
  (l.map (fun p => p.2.nodeCount)).sum

/-- First pass of `_updateChildren` over the previous children
(lines 355–365): re-derive each previous child's `_mountIndex` as the running
total of preceding siblings' `_nodeCount`, starting from `nodeCountBefore`. -/
def assignMountIndices : List (String × Component) → Nat → List (String × Component)
  | [], _ => []
  | (n, c) :: t, acc => (n, { c with mountIndex := some acc }) :: assignMountIndices t (acc + c.nodeCount)

/-- The positions assigned by a running nodeCount total starting at `acc`:
`[acc, acc + c0, acc + c0 + c1, ...]`. -/
def prefixPositions (acc : Nat) : List Nat → List Nat
  | [] => []
  | c :: t => acc :: prefixPositions (acc + c) t

/-- Adjacent-strictly-increasing test for a list of positions. -/
def strictIncB : List Nat → Bool
  | a :: b :: t => decide (a < b) && strictIncB (b :: t)
  | _ => true

/-- State threaded through the second pass of `_updateChildren`
(lines 366–410): the live `_renderedChildren` map (mutated in place by the
source through `_mountChildByNameAtIndex` / `_unmountChildByName`), the
queued records and markup, the event trace, and the loop variables
`nextIndex`, `lastIndex`, `lastChild`, plus the parent's
`_firstRenderedChild` assignment. -/
structure P2State where
  children : List (String × Component)
  recs : List UpdateRecord
  marks : List String
  events : List ChildEvent
  nextIndex : Nat
  lastIndex : Nat
  lastChild : Option Component
  firstChild : Option Nat
deriving DecidableEq, Repr

/-- `_mountChildByNameAtIndex` (lines 517–532) followed by the shared
`mountedChild` bookkeeping of the loop body (lines 402–409): mounts the
child at `rootID = idPrefix + name`, sets `_parentComponent`, and enqueues
the INSERT via `createChild` (lines 477–479).  `createChild` enqueues at
`child._mountIndex` — and `_mountChildByNameAtIndex`, unlike its
documentation (`@param index Index at which to insert the child`) and unlike
the unit-index engine in `src/unnamed/part_000`, never assigns
`child._mountIndex` from its `index` parameter, so the record's `toIndex` is
the child's pre-existing `mountIndex` field (`none` for a fresh child). -/
def mountNewChild (nodeID idPref : String) (st : P2State) (name : String)
    (nc : Component) : P2State :=
  let rootID := idPref ++ name
  let img := mountImage nc rootID
  let ncf := { nc with parentLinked := true, prevSibling := st.lastChild.map Component.cid }
  { children := aupsert st.children name ncf,
    recs := st.recs ++ [insertRec nodeID st.marks.length nc.mountIndex],
    marks := st.marks ++ [img],
    events := st.events ++ [ChildEvent.mounted name],
    nextIndex := st.nextIndex + nc.nodeCount,
    lastIndex := st.lastIndex,
    lastChild := some ncf,
    firstChild := if st.lastChild.isNone then some ncf.cid else st.firstChild }

/-- One iteration of the second pass of `_updateChildren` (lines 371–410)
for the entry `(name, nextChild)`:
* `shouldUpdateChild` holds (same key in the live map, same constructor):
  update `lastIndex` (line 379), apply props via `receiveProps` (line 380,
  recorded as an event; the object mutation is reflected into the map entry),
  and `moveChild` (lines 460–467) emits a MOVE record only when
  `prevChild._mountIndex < lastIndex`;
* otherwise: if a previous child exists, update `lastIndex` then
  `_unmountChildByName` (lines 545–554: REMOVE record at the previous
  child's `_mountIndex`/`_nodeCount`, unmount event, `delete` from the map),
  and mount the next child fresh;
* finally the `mountedChild` bookkeeping (lines 402–409): sibling links and
  `nextIndex += mountedChild._nodeCount`. -/
def updateStep (nodeID idPref : String) (st : P2State) (entry : String × Component) :
    P2State :=
  let name := entry.1
  let nc := entry.2
  match alookup st.children name with
  | some pc =>
    if pc.ctor = nc.ctor then
      let lastIndex := max (mountIndexD pc) st.lastIndex
      let pcf := { pc with props := nc.props, prevSibling := st.lastChild.map Component.cid }
      let recs :=
        if mountIndexD pc < lastIndex then
          st.recs ++ [moveRec nodeID pc.nodeCount (mountIndexD pc) st.nextIndex]
        else st.recs
      { children := aupsert st.children name pcf,
        recs := recs,
        marks := st.marks,
        events := st.events ++ [ChildEvent.receivedProps name],
        nextIndex := st.nextIndex + pc.nodeCount,
        lastIndex := lastIndex,
        lastChild := some pcf,
        firstChild := if st.lastChild.isNone then some pcf.cid else st.firstChild }
    else
      let st1 : P2State :=
        { st with
          lastIndex := max (mountIndexD pc) st.lastIndex,
          children := aerase st.children name,
          recs := st.recs ++ [removeRec nodeID pc.nodeCount (mountIndexD pc)],
          events := st.events ++ [ChildEvent.unmounted name] }
      mountNewChild nodeID idPref st1 name nc
  | none => mountNewChild nodeID idPref st name nc

/-- The second pass of `_updateChildren` over the next children in
caller-supplied order (lines 371–410). -/
def runPass2 (nodeID idPref : String) : List (String × Component) → P2State → P2State
  | [], st => st
  | e :: t, st => runPass2 nodeID idPref t (updateStep nodeID idPref st e)

/-- The third pass of `_updateChildren` (lines 411–418): iterate the live
children map (the first argument is the snapshot being iterated) and
`_unmountChildByName` every child whose key is not (truthily) present in
`nextChildren`. -/
def removePass (nodeID : String) (nextL : List (String × Component)) :
    List (String × Component) → P2State → P2State
  | [], st => st
  | (name, c) :: t, st =>
    if (alookup nextL name).isSome then removePass nodeID nextL t st
    else
      removePass nodeID nextL t
        { st with
          children := aerase st.children name,
          recs := st.recs ++ [removeRec nodeID c.nodeCount (mountIndexD c)],
          events := st.events ++ [ChildEvent.unmounted name] }

/-- The ancestor walk of lines 422–426: add `nodeCountDiff` to every
ancestor's `_nodeCount` strictly below the first ancestor whose
`_rootNodeID` equals `nodeID`; that ancestor and everything above it are
untouched.  The chain is the `_parentComponent` chain, nearest ancestor
first, as `(rootNodeID, nodeCount)` pairs; the arithmetic is over `Int`
because `nodeCountDiff` may be negative. -/
def propagateNodeCountDiff (nodeID : String) (diff : Int) :
    List (String × Int) → List (String × Int)
  | [] => []
  | (rid, c) :: t =>
    if rid = nodeID then (rid, c) :: t
    else (rid, c + diff) :: propagateNodeCountDiff nodeID diff t

/-- Failure outcomes of the diff body: `invariant(...)` violations (fatal,
with diagnostic message) and the JS `TypeError` the root-replacement branch
raises when it dereferences an absent child or map. -/
inductive RErr where
  | invariantViolation (msg : String)
  | typeError
deriving DecidableEq, Repr

/-- The observable outcome of one `_updateChildren` body: the updated parent
(children map, `_nodeCount`, `_firstRenderedChild`), the enqueued records and
markup in order, the collaborator-call trace, the updated ancestor chain, and
the final `nextIndex` value. -/
structure DiffResult where
  component : ParentComponent
  records : List UpdateRecord
  markups : List String
  events : List ChildEvent
  ancestors : List (String × Int)
  nextIndex : Nat
deriving DecidableEq, Repr

/-- `_updateChildren` (source name; lines 307–427), the diff body inside the
depth/queue guard.  Extra explicit arguments stand for the parts of the
object graph the source reaches through pointers:
* `chainCounts` — the `nodeCountBefore` walk of lines 346–353 chases
  `_previousSibling`/`_parentComponent` pointers from `_firstRenderedChild`
  up to the addressable node, summing the `_nodeCount` of every preceding
  subtree; `chainCounts` lists those preceding-subtree counts level by level,
  so the walk's result is their sum, checked against the `invariant` of
  line 354;
* `ancestors` — the `_parentComponent` chain above `component` used by the
  node-count propagation of lines 419–426.
The root-replacement branch (lines 320–340) is entered when the resolved
`nodeID` is empty; reading a child from an absent map there is the JS
`TypeError` (the source trusts the caller to have a sole child under the
empty key on both sides).  When the previous child is present but the next
is missing the source would unmount before failing; the model collapses this
to the error alone. -/
def updateChildrenCore (comp : ParentComponent) (idPref : String)
    (nextChildren : Option (List (String × Component)))
    (chainCounts : List (List Nat)) (ancestors : List (String × Int)) :
    Except RErr DiffResult :=
  let nodeID := if lastCharIsDot idPref then comp.rootNodeID else getParentID comp.rootNodeID
  if nodeID = "" then
    match comp.renderedChildren, nextChildren with
    | some pl, some nl =>
      match alookup pl "", alookup nl "" with
      | some pc, some nc =>
        if pc.ctor = nc.ctor then
          Except.ok
            { component :=
                { comp with renderedChildren := some (aupsert pl "" { pc with props := nc.props }) },
              records := [], markups := [],
              events := [ChildEvent.receivedProps ""],
              ancestors := ancestors, nextIndex := 0 }
        else
          Except.ok
            { component := { comp with renderedChildren := some (aupsert pl "" nc) },
              records := [replaceRec pc.rootNodeID 0],
              markups := [mountImage nc comp.rootNodeID],
              events := [ChildEvent.unmounted "", ChildEvent.mounted ""],
              ancestors := ancestors, nextIndex := 0 }
      | _, _ => Except.error RErr.typeError
    | _, _ => Except.error RErr.typeError
  else if comp.renderedChildren.isNone && nextChildren.isNone then
    Except.ok
      { component := comp, records := [], markups := [], events := [],
        ancestors := ancestors, nextIndex := 0 }
  else
    let nodeCountBefore := (chainCounts.map List.sum).sum
    if nodeCountBefore = 0 then
      let prev1 := assignMountIndices comp.renderedChildrenD nodeCountBefore
      let nextL := nextChildren.getD []
      let st0 : P2State :=
        { children := prev1, recs := [], marks := [], events := [],
          nextIndex := 0, lastIndex := 0, lastChild := none,
          firstChild := comp.firstRenderedChild }
      let st1 := runPass2 nodeID idPref nextL st0
      let st2 := removePass nodeID nextL st1.children st1
      let diff : Int := (st2.nextIndex : Int) - ((comp.nodeCount.getD 0 : Nat) : Int)
      Except.ok
        { component :=
            { comp with
              renderedChildren := some st2.children,
              nodeCount := some st2.nextIndex,
              firstRenderedChild := st2.firstChild },
          records := st2.recs, markups := st2.marks, events := st2.events,
          ancestors := propagateNodeCountDiff nodeID diff ancestors,
          nextIndex := st2.nextIndex }
    else Except.error (RErr.invariantViolation "y")

/-- Records of a diff body outcome (empty on error). -/
def recsOf (e : Except RErr DiffResult) : List UpdateRecord :=
  match e with
  | Except.ok r => r.records
  | Except.error _ => []

/-- Event trace of a diff body outcome (empty on error). -/
def eventsOf (e : Except RErr DiffResult) : List ChildEvent :=
  match e with
  | Except.ok r => r.events
  | Except.error _ => []

/-- Resulting rendered-children map of a diff body outcome. -/
def kidsOf (e : Except RErr DiffResult) : List (String × Component) :=
  match e with
  | Except.ok r => r.component.renderedChildrenD
  | Except.error _ => []

/-! ## The unit-index diff engine of `src/unnamed/part_000`

Same record queue, but its records carry no `nodeCount` field, every child
occupies one position (`nextIndex++`), `_mountIndex` is assigned at mount
time (`mountChildren` line 198, `_mountChildByNameAtIndex` line 436) and on
reuse (`prevChild._mountIndex = nextIndex`, line 308), and `moveChild` runs
before the `lastIndex` update (lines 305–306). -/

/-- An update record of the unit-index engine (`part_000` lines 75–147):
identical to `UpdateRecord` except that no `nodeCount` field exists. -/
structure URecord where
  parentID : String
  rtype : UpdateType
  markupIndex : Option Nat
  textContent : Option String
  fromIndex : Option Nat
  toIndex : Option Nat
deriving DecidableEq, Repr

/-- `enqueueMarkup` of `part_000` (lines 75–86). -/
def uInsertRec (pID : String) (mIdx : Nat) (toI : Option Nat) : URecord :=
  { parentID := pID, rtype := UpdateType.insertMarkup, markupIndex := some mIdx,
    textContent := none, fromIndex := none, toIndex := toI }

/-- `enqueueMove` of `part_000` (lines 96–107). -/
def uMoveRec (pID : String) (fromI toI : Nat) : URecord :=
  { parentID := pID, rtype := UpdateType.moveExisting, markupIndex := none,
    textContent := none, fromIndex := some fromI, toIndex := some toI }

/-- `enqueueRemove` of `part_000` (lines 116–127); `fromIndex` is the
child's `_mountIndex` field. -/
def uRemoveRec (pID : String) (fromI : Option Nat) : URecord :=
  { parentID := pID, rtype := UpdateType.removeNode, markupIndex := none,
    textContent := none, fromIndex := fromI, toIndex := none }

/-- State threaded through the loops of `part_000`'s `_updateChildren`. -/
structure UState where
  children : List (String × Component)
  recs : List URecord
  marks : List String
  nextIndex : Nat
  lastIndex : Nat
deriving DecidableEq, Repr

/-- One iteration of `part_000`'s next-children loop (lines 298–330):
on reuse, `moveChild` first (against the old `lastIndex`), then the
`lastIndex` update, `receiveProps`, and `prevChild._mountIndex = nextIndex`;
otherwise remove the previous child (REMOVE at its `_mountIndex`) and mount
the next child, with `_mountChildByNameAtIndex` assigning
`child._mountIndex = index` (line 436) before `createChild` enqueues at it;
finally `nextIndex++`. -/
def uStep (nodeID idPref : String) (st : UState) (entry : String × Component) : UState :=
  let name := entry.1
  let nc := entry.2
  match alookup st.children name with
  | some pc =>
    if pc.ctor = nc.ctor then
      let recs :=
        if mountIndexD pc < st.lastIndex then
          st.recs ++ [uMoveRec nodeID (mountIndexD pc) st.nextIndex]
        else st.recs
      let pcf := { pc with props := nc.props, mountIndex := some st.nextIndex }
      { children := aupsert st.children name pcf, recs := recs, marks := st.marks,
        nextIndex := st.nextIndex + 1, lastIndex := max (mountIndexD pc) st.lastIndex }
    else
      let st1 : UState :=
        { st with
          lastIndex := max (mountIndexD pc) st.lastIndex,
          children := aerase st.children name,
          recs := st.recs ++ [uRemoveRec nodeID pc.mountIndex] }
      let img := mountImage nc (idPref ++ name)
      let ncf := { nc with mountIndex := some st.nextIndex }
      { children := aupsert st1.children name ncf,
        recs := st1.recs ++ [uInsertRec nodeID st1.marks.length ncf.mountIndex],
        marks := st1.marks ++ [img],
        nextIndex := st1.nextIndex + 1, lastIndex := st1.lastIndex }
  | none =>
    let img := mountImage nc (idPref ++ name)
    let ncf := { nc with mountIndex := some st.nextIndex }
    { children := aupsert st.children name ncf,
      recs := st.recs ++ [uInsertRec nodeID st.marks.length ncf.mountIndex],
      marks := st.marks ++ [img],
      nextIndex := st.nextIndex + 1, lastIndex := st.lastIndex }

/-- The next-children loop of `part_000` (lines 298–330). -/
def uRunPass (nodeID idPref : String) : List (String × Component) → UState → UState
  | [], st => st
  | e :: t, st => uRunPass nodeID idPref t (uStep nodeID idPref st e)

/-- The removal pass of `part_000` (lines 331–338). -/
def uRemovePass (nodeID : String) (nextL : List (String × Component)) :
    List (String × Component) → UState → UState
  | [], st => st
  | (name, c) :: t, st =>
    if (alookup nextL name).isSome then uRemovePass nodeID nextL t st
    else
      uRemovePass nodeID nextL t
        { st with
          children := aerase st.children name,
          recs := st.recs ++ [uRemoveRec nodeID c.mountIndex] }

/-- `_updateChildren` of `part_000` (lines 283–339): no root-replacement
branch, no `nodeCountBefore` walk, no first pass over previous children and
no ancestor propagation — `nodeID` arrives as an explicit argument. -/
def uUpdateChildren (comp : ParentComponent) (nodeID idPref : String)
    (nextChildren : Option (List (String × Component))) : UState :=
  if comp.renderedChildren.isNone && nextChildren.isNone then
    { children := comp.renderedChildrenD, recs := [], marks := [],
      nextIndex := 0, lastIndex := 0 }
  else
    let nextL := nextChildren.getD []
    let st0 : UState :=
      { children := comp.renderedChildrenD, recs := [], marks := [],
        nextIndex := 0, lastIndex := 0 }
    let st1 := uRunPass nodeID idPref nextL st0
    uRemovePass nodeID nextL st1.children st1

/-! ## The process-wide queue and the reentrancy depth guard

`updateDepth`, `updateQueue` and `markupQueue` (lines 48–66) become a
`QState`; `processQueue` (lines 182–190) hands the queues to the
output-applying collaborator (`dangerouslyProcessChildrenUpdates`), recorded
in `flushes`, then clears; the `try/catch` skeleton shared by
`updateChildren` (lines 278–294) and `updateTextContent` (lines 246–267)
becomes a wrapper around an arbitrary body. -/

/-- The process-wide mutable state: the reentrancy depth counter, the two
queues, and the history of calls made to the output-applying collaborator
(each entry is the `(updateQueue, markupQueue)` pair handed over). -/
structure QState where
  depth : Nat
  updates : List UpdateRecord
  markups : List String
  flushes : List (List UpdateRecord × List String)
deriving DecidableEq, Repr

/-- `processQueue` (lines 182–190): a no-op when `updateQueue` is empty,
otherwise one call to the output-applying collaborator with both queues in
enqueue order, then `clearQueue`. -/
def processQueue (s : QState) : QState :=
  if s.updates.isEmpty then s
  else { s with updates := [], markups := [], flushes := s.flushes ++ [(s.updates, s.markups)] }

/-- `clearQueue` (lines 197–200). -/
def clearQueue (s : QState) : QState :=
  { s with updates := [], markups := [] }

/-- Appending one record (and its markup entry, when markup-bearing) to the
shared queues. -/
def qpush (s : QState) (r : UpdateRecord) (m : Option String) : QState :=
  { s with updates := s.updates ++ [r], markups := s.markups ++ m.toList }

/-- The depth-guard skeleton of `updateChildren` (lines 278–294) for a body
that completes normally: increment `updateDepth`, run the body against the
shared state, decrement, and `processQueue` exactly when the depth returned
to zero. -/
def updateWrap (body : QState → QState) (s : QState) : QState :=
  let s1 := { s with depth := s.depth + 1 }
  let s2 := body s1
  let s3 := { s2 with depth := s2.depth - 1 }
  if s3.depth = 0 then processQueue s3 else s3

/-- A reconciliation body as the queue sees it: a sequence of record
enqueues interleaved with nested `updateChildren`/`updateTextContent` calls
(each nested call wrapping its own body in the same depth guard). -/
inductive Prog where
  | done
  | enq (r : UpdateRecord) (m : Option String) (rest : Prog)
  | nested (inner rest : Prog)

/-- Run a body against the shared queue state; nested calls go through
`updateWrap`. -/
def execProg : Prog → QState → QState
  | Prog.done, s => s
  | Prog.enq r m rest, s => execProg rest (qpush s r m)
  | Prog.nested inner rest, s => execProg rest (updateWrap (execProg inner) s)

/-- All records a body enqueues, in order, across all nesting levels. -/
def progRecords : Prog → List UpdateRecord
  | Prog.done => []
  | Prog.enq r _ rest => r :: progRecords rest
  | Prog.nested inner rest => progRecords inner ++ progRecords rest

/-- All markup entries a body enqueues, in order. -/
def progMarks : Prog → List String
  | Prog.done => []
  | Prog.enq _ m rest => m.toList ++ progMarks rest
  | Prog.nested inner rest => progMarks inner ++ progMarks rest

/-- The depth-guard skeleton for a body that may raise (the `try/catch` of
lines 279–293 and 247–264): on error the depth counter is still
decremented, and when it reaches zero the queue is cleared — discarded, not
flushed — before the error propagates unmodified. -/
def updateWrapE (body : QState → QState × Option String) (s : QState) :
    QState × Option String :=
  let s1 := { s with depth := s.depth + 1 }
  let p := body s1
  match p.2 with
  | some e =>
    let s3 := { p.1 with depth := p.1.depth - 1 }
    (if s3.depth = 0 then clearQueue s3 else s3, some e)
  | none =>
    let s3 := { p.1 with depth := p.1.depth - 1 }
    (if s3.depth = 0 then processQueue s3 else s3, none)

/-- A body that may fail partway (a child's mount/update/unmount raising, or
an `invariant` violation), with nested guarded calls. -/
inductive ProgE where
  | done
  | enq (r : UpdateRecord) (m : Option String) (rest : ProgE)
  | fail (msg : String)
  | nested (inner rest : ProgE)

/-- Run a fallible body; an error short-circuits the rest of the body and
propagates out of nested guards unmodified. -/
def execProgE : ProgE → QState → QState × Option String
  | ProgE.done, s => (s, none)
  | ProgE.enq r m rest, s => execProgE rest (qpush s r m)
  | ProgE.fail msg, s => (s, some msg)
  | ProgE.nested inner rest, s =>
    match updateWrapE (execProgE inner) s with
    | (s', some e) => (s', some e)
    | (s', none) => execProgE rest s'

/-- The first error a fallible body raises, if any. -/
def progErr : ProgE → Option String
  | ProgE.done => none
  | ProgE.enq _ _ rest => progErr rest
  | ProgE.fail msg => some msg
  | ProgE.nested inner rest =>
    match progErr inner with
    | some e => some e
    | none => progErr rest

/-- `updateTextContent(component, nextContent)` (lines 246–267) under the
depth guard: enumerating any key of `_renderedChildren` is the fatal
`invariant` of lines 250–257, whose diagnostic names the offending (first
enumerated) key; otherwise `setTextContent` enqueues exactly one
TEXT_CONTENT record addressed at the component's own root id. -/
def updateTextContent (c : ParentComponent) (text : String) (s : QState) :
    QState × Option String :=
  updateWrapE
    (fun st =>
      match c.renderedChildren with
      | some ((name, _) :: _) =>
        (st, some ("ReactMultiChild: All children should be removed before updateTextContent is called; found child " ++ name))
      | _ => (qpush st (textRec c.rootNodeID text) none, none))
    s

/-- `unmountChildren(component)` (lines 436–449): unmount every rendered
child (clearing its positional/sibling/parent linkage fields — the children
leave the model's state), then clear `_renderedChildren` and `_nodeCount` to
null.  Enqueues nothing. -/
def unmountChildren (c : ParentComponent) : ParentComponent × List ChildEvent :=
  ({ c with renderedChildren := none, nodeCount := none },
    c.renderedChildrenD.map (fun p => ChildEvent.unmounted p.1))


/-- The output-node contribution of the next child under key `n` in one
second-pass step, read off the previous-children map: the previous instance's
`nodeCount` when it is reused (`shouldUpdateChild` holds), the next child's
own `nodeCount` otherwise (lines 402–409 advance `nextIndex` by the mounted
child's count). -/
def reuseCount (prev0 : List (String × Component)) (n : String) (c : Component) : Nat :=
  match alookup prev0 n with
  | some pc => if pc.ctor = c.ctor then pc.nodeCount else c.nodeCount
  | none => c.nodeCount

/-- The total `nextIndex` reached by the second pass: the sum of the mounted
children's `nodeCount` values over the next-children list. -/
def expectedNextIndex (prev0 : List (String × Component)) :
    List (String × Component) → Nat
  | [] => 0
  | (n, c) :: t => reuseCount prev0 n c + expectedNextIndex prev0 t

/-! ## Concrete fixtures -/

/-- A child instance with the given identity, constructor, node count and
root id; `mountIndex` not yet assigned, no links. -/
def mkComp (i ct ncount : Nat) (rid : String) : Component :=
  { cid := i, ctor := ct, props := 0, rootNodeID := rid, nodeCount := ncount,
    mountIndex := none, prevSibling := none, parentLinked := false }

/-- Parent with previous keys `[a, b, c]`, node counts `[1, 1, 1]`. -/
def compABC : ParentComponent :=
  { rootNodeID := "r",
    renderedChildren := some
      [("a", mkComp 1 0 1 "r.a"), ("b", mkComp 2 0 1 "r.b"), ("c", mkComp 3 0 1 "r.c")],
    nodeCount := some 3, firstRenderedChild := some 1 }

/-- Next keys `[c, a, b]`, same constructor as the previous children. -/
def nextCAB : List (String × Component) :=
  [("c", mkComp 13 0 1 ""), ("a", mkComp 11 0 1 ""), ("b", mkComp 12 0 1 "")]

/-- A reachable mid-pass state: one reusable previous child `a` at previous
position 0, high-water mark 2, two output nodes already laid down. -/
def stC1W : P2State :=
  { children := [("a", mkComp 1 0 1 "r.a")], recs := [], marks := [], events := [],
    nextIndex := 1, lastIndex := 2, lastChild := none, firstChild := none }

/-- A bare parent for `mountChildren` runs. -/
def compM : ParentComponent :=
  { rootNodeID := "p", renderedChildren := none, nodeCount := none, firstRenderedChild := none }

/-- Previous `{x : ctor 0}`. -/
def compC3 : ParentComponent :=
  { rootNodeID := "r", renderedChildren := some [("x", mkComp 1 0 1 "r.x")],
    nodeCount := some 1, firstRenderedChild := some 1 }

/-- Next `{x : ctor 5}` — same key, different constructor. -/
def nextC3 : List (String × Component) := [("x", mkComp 2 5 1 "")]

/-- A top-level parent: its own root id has no parent id, so the diff's
addressable node id resolves to the empty string. -/
def compRoot : ParentComponent :=
  { rootNodeID := ".0", renderedChildren := some [("", mkComp 1 0 1 ".0")],
    nodeCount := some 1, firstRenderedChild := some 1 }

/-- A two-level body: one record enqueued by the outer call, one by a nested
call. -/
def progW : Prog :=
  Prog.enq (textRec "n" "t") none (Prog.nested (Prog.enq (textRec "n2" "t2") none Prog.done) Prog.done)

/-- A body that enqueues a record, completes a nested call (which enqueues
another), then fails. -/
def progEW : ProgE :=
  ProgE.enq (textRec "n" "t") none
    (ProgE.nested (ProgE.enq (textRec "n2" "t2") none ProgE.done) (ProgE.fail "boom"))

/-- A parent that still has a keyed child `k`. -/
def compT : ParentComponent :=
  { rootNodeID := "t", renderedChildren := some [("k", mkComp 1 0 1 "t.k")],
    nodeCount := some 1, firstRenderedChild := some 1 }

/-- Empty previous state. -/
def compC10 : ParentComponent :=
  { rootNodeID := "r", renderedChildren := some [], nodeCount := some 0,
    firstRenderedChild := none }

/-- Next `{a : nodeCount 1}`. -/
def nextC10 : List (String × Component) := [("a", mkComp 1 0 1 "")]

/-! ## C6 — one flush per outermost call -/

theorem progMarks_eq_nil : ∀ p : Prog, progRecords p = [] → progMarks p = []
  | Prog.done, _ => rfl
  | Prog.enq r m rest, h => by simp [progRecords] at h
  | Prog.nested inner rest, h => by
    simp only [progRecords, List.append_eq_nil] at h
    simp [progMarks, progMarks_eq_nil inner h.1, progMarks_eq_nil rest h.2]

theorem execProg_append : ∀ (p : Prog) (s : QState), 1 ≤ s.depth →
    execProg p s =
      { s with updates := s.updates ++ progRecords p, markups := s.markups ++ progMarks p } := by
  intro p
  induction p with
  | done =>
    intro s h
    simp [execProg, progRecords, progMarks]
  | enq r m rest ih =>
    intro s h
    obtain ⟨d, u, mk, f⟩ := s
    simp only [execProg]
    rw [ih (qpush ⟨d, u, mk, f⟩ r m) h]
    simp [qpush, progRecords, progMarks]
  | nested inner rest ih1 ih2 =>
    intro s h
    obtain ⟨d, u, mk, f⟩ := s
    have hd1 : (1 : Nat) ≤ d := h
    simp only [execProg, updateWrap]
    rw [ih1 ⟨d + 1, u, mk, f⟩ (by simp)]
    have hd : ¬ (d + 1 - 1 = 0) := by omega
    simp only [Nat.add_sub_cancel] at hd ⊢
    rw [if_neg hd]
    rw [ih2 ⟨d, u ++ progRecords inner, mk ++ progMarks inner, f⟩ hd1]
    simp [progRecords, progMarks]

/-- C6: for every (possibly nested) sequence of guarded reconciliation calls
that completes normally, starting at depth zero with empty queues, the
output-applying collaborator is invoked exactly once, as the outermost call
returns, with all records of all nesting levels in enqueue order, after
which both queues are empty (and not at all if nothing was enqueued); a call
entered at depth ≥ 1 only appends to the shared queues — it neither flushes
nor clears; and `processQueue` with an empty update queue does not invoke
the collaborator. -/
theorem c6_single_flush :
    (∀ (p : Prog) (F : List (List UpdateRecord × List String)),
      updateWrap (execProg p) { depth := 0, updates := [], markups := [], flushes := F } =
        { depth := 0, updates := [], markups := [],
          flushes := if progRecords p = [] then F else F ++ [(progRecords p, progMarks p)] })
    ∧ (∀ (p : Prog) (s : QState), 1 ≤ s.depth →
      execProg p s =
        { s with updates := s.updates ++ progRecords p, markups := s.markups ++ progMarks p })
    ∧ (∀ s : QState, s.updates = [] → processQueue s = s) := by
  refine ⟨?_, execProg_append, ?_⟩
  · intro p F
    simp only [updateWrap]
    rw [execProg_append p ⟨0 + 1, [], [], F⟩ (by simp)]
    simp [processQueue, List.isEmpty_iff]
    split
    · rename_i hnil
      simp [hnil, progMarks_eq_nil p hnil]
    · rfl
  · intro s h
    simp [processQueue, h]

/-- Witness for C6: the nested body at depth 1 only appends, and the
outermost wrapper flushes once with both records in order. -/
theorem c6_single_flush_witness :
    execProg progW { depth := 1, updates := [], markups := [], flushes := [] } =
      { ({ depth := 1, updates := [], markups := [], flushes := [] } : QState) with
        updates := [] ++ progRecords progW, markups := [] ++ progMarks progW }
    ∧ updateWrap (execProg progW) { depth := 0, updates := [], markups := [], flushes := [] } =
      { depth := 0, updates := [], markups := [],
        flushes := if progRecords progW = [] then [] else [] ++ [(progRecords progW, progMarks progW)] } :=
  ⟨c6_single_flush.2.1 progW ⟨1, [], [], []⟩ (by decide), c6_single_flush.1 progW []⟩

/-! ## C7 — errors discard the batch -/

theorem execProgE_guarded : ∀ (p : ProgE) (s : QState), 1 ≤ s.depth →
    (execProgE p s).1.depth = s.depth ∧ (execProgE p s).1.flushes = s.flushes
      ∧ (execProgE p s).2 = progErr p := by
  intro p
  induction p with
  | done =>
    intro s h
    simp [execProgE, progErr]
  | enq r m rest ih =>
    intro s h
    have := ih (qpush s r m) h
    simpa [execProgE, qpush, progErr] using this
  | fail msg =>
    intro s h
    simp [execProgE, progErr]
  | nested inner rest ih1 ih2 =>
    intro s h
    have hinner := ih1 { s with depth := s.depth + 1 } (by simp)
    rcases hev : execProgE inner { s with depth := s.depth + 1 } with ⟨s2, e2⟩
    rw [hev] at hinner
    obtain ⟨hdep, hfl, herr⟩ := hinner
    simp only at hdep hfl herr
    cases e2 with
    | some e =>
      have : execProgE (ProgE.nested inner rest) s =
          ({ s2 with depth := s2.depth - 1 }, some e) := by
        simp only [execProgE, updateWrapE, hev]
        have : ¬ (s2.depth - 1 = 0) := by omega
        rw [if_neg this]
      rw [this]
      refine ⟨by simp; omega, by simp [hfl], ?_⟩
      simp [progErr, ← herr]
    | none =>
      have hstep : updateWrapE (execProgE inner) s = ({ s2 with depth := s2.depth - 1 }, none) := by
        simp only [updateWrapE, hev]
        have : ¬ (s2.depth - 1 = 0) := by omega
        rw [if_neg this]
      have hrest := ih2 { s2 with depth := s2.depth - 1 } (by simp; omega)
      have : execProgE (ProgE.nested inner rest) s =
          execProgE rest { s2 with depth := s2.depth - 1 } := by
        simp only [execProgE, hstep]
      rw [this]
      refine ⟨?_, ?_, ?_⟩
      · rw [hrest.1]; simp; omega
      · rw [hrest.2.1]; simp [hfl]
      · rw [hrest.2.2]; simp [progErr, ← herr]

/-- C7: if the guarded body raises, the depth counter is still decremented;
when it reaches zero both queues are cleared — discarded, never handed to
the output-applying collaborator (`flushes` is unchanged, so no record of
the failed batch, including records enqueued by already-completed nested
calls, is ever applied) — and the original error propagates unmodified. -/
theorem c7_error_discards_queue :
    ∀ (p : ProgE) (e : String) (F : List (List UpdateRecord × List String)),
      progErr p = some e →
      updateWrapE (execProgE p) { depth := 0, updates := [], markups := [], flushes := F } =
        ({ depth := 0, updates := [], markups := [], flushes := F }, some e) := by
  intro p e F herr
  have h := execProgE_guarded p ⟨0 + 1, [], [], F⟩ (by simp)
  rcases hev : execProgE p ⟨0 + 1, [], [], F⟩ with ⟨s2, e2⟩
  rw [hev] at h
  obtain ⟨hdep, hfl, he2⟩ := h
  simp only at hdep hfl he2
  subst he2
  rw [herr] at hev
  simp only [updateWrapE, hev]
  have : s2.depth - 1 = 0 := by omega
  rw [this, if_pos rfl]
  obtain ⟨d2, u2, mk2, f2⟩ := s2
  simp only at hdep hfl
  simp [clearQueue, hfl]

/-- Witness for C7: the failing batch is discarded whole and the error
propagates. -/
theorem c7_error_discards_queue_witness :
    updateWrapE (execProgE progEW) { depth := 0, updates := [], markups := [], flushes := [] } =
      ({ depth := 0, updates := [], markups := [], flushes := [] }, some "boom") :=
  c7_error_discards_queue progEW "boom" [] (by decide)

/-! ## C8 — the text-content fast path -/

/-- C8: `updateTextContent` raises the fatal invariant violation naming the
offending key if and only if the component's rendered-children map
enumerates at least one key (first conjunct: some key enumerated — raises,
naming the first key, and the queue is cleared, not flushed; second
conjunct: no key enumerated — exactly one TEXT_CONTENT record addressed at
the component's own root id is enqueued and flushed); and `unmountChildren`
followed by `updateTextContent` never raises (third conjunct). -/
theorem c8_text_content :
    ∀ (c : ParentComponent) (text : String) (F : List (List UpdateRecord × List String)),
      (∀ (name : String) (ch : Component) (rest : List (String × Component)),
        c.renderedChildren = some ((name, ch) :: rest) →
        updateTextContent c text { depth := 0, updates := [], markups := [], flushes := F } =
          ({ depth := 0, updates := [], markups := [], flushes := F },
            some ("ReactMultiChild: All children should be removed before updateTextContent is called; found child " ++ name)))
      ∧ (c.renderedChildren = none ∨ c.renderedChildren = some [] →
        updateTextContent c text { depth := 0, updates := [], markups := [], flushes := F } =
          ({ depth := 0, updates := [], markups := [],
              flushes := F ++ [([textRec c.rootNodeID text], [])] }, none))
      ∧ updateTextContent (unmountChildren c).1 text
            { depth := 0, updates := [], markups := [], flushes := F } =
          ({ depth := 0, updates := [], markups := [],
              flushes := F ++ [([textRec c.rootNodeID text], [])] }, none) := by
  intro c text F
  refine ⟨?_, ?_, ?_⟩
  · intro name ch rest h
    simp [updateTextContent, updateWrapE, h, clearQueue]
  · intro h
    rcases h with h | h <;>
      simp [updateTextContent, updateWrapE, h, qpush, processQueue, textRec]
  · simp [updateTextContent, updateWrapE, unmountChildren, qpush, processQueue, textRec]

/-- Witness for C8: with child `k` still rendered the call raises naming
`k`; after `unmountChildren` the same call succeeds with one TEXT_CONTENT
record. -/
theorem c8_text_content_witness :
    updateTextContent compT "hi" { depth := 0, updates := [], markups := [], flushes := [] } =
      ({ depth := 0, updates := [], markups := [], flushes := [] },
        some ("ReactMultiChild: All children should be removed before updateTextContent is called; found child " ++ "k"))
    ∧ updateTextContent (unmountChildren compT).1 "hi"
        { depth := 0, updates := [], markups := [], flushes := [] } =
      ({ depth := 0, updates := [], markups := [],
          flushes := [] ++ [([textRec compT.rootNodeID "hi"], [])] }, none) :=
  ⟨(c8_text_content compT "hi" []).1 "k" (mkComp 1 0 1 "t.k") [] rfl,
    (c8_text_content compT "hi" []).2.2⟩


theorem alookup_aupsert_ne {α : Type} (l : List (String × α)) (n k : String) (v : α)
    (h : k ≠ n) : alookup (aupsert l n v) k = alookup l k := by
  induction l with
  | nil => simp [aupsert, alookup, Ne.symm h]
  | cons p t ih =>
    obtain ⟨m, w⟩ := p
    by_cases hm : m = n
    · subst hm
      simp [aupsert, alookup, Ne.symm h]
    · simp [aupsert, alookup, hm, ih]

theorem alookup_aerase_ne {α : Type} (l : List (String × α)) (n k : String)
    (h : k ≠ n) : alookup (aerase l n) k = alookup l k := by
  induction l with
  | nil => simp [aerase, alookup]
  | cons p t ih =>
    obtain ⟨m, w⟩ := p
    by_cases hm : m = n
    · subst hm
      simp [aerase, alookup, Ne.symm h]
    · simp [aerase, alookup, hm, ih]

theorem alookup_aupsert_self {α : Type} (l : List (String × α)) (n : String) (v : α) :
    alookup (aupsert l n v) n = some v := by
  induction l with
  | nil => simp [aupsert, alookup]
  | cons p t ih =>
    obtain ⟨m, w⟩ := p
    by_cases hm : m = n
    · subst hm
      simp [aupsert, alookup]
    · simp [aupsert, alookup, hm, ih]

/-! ## C1 — MOVE is emitted iff the previous position is below the high-water mark -/

/-- C1: in the second pass of `updateChildren`, a reused child (same key,
`shouldUpdateChild` holds) has a MOVE_EXISTING record emitted if and only if
its previous `mountIndex` is strictly below the high-water mark (`lastIndex`)
of previous positions consumed by earlier-processed next children — the
source updates `lastIndex` to `max` before `moveChild`, which makes the test
`prevChild._mountIndex < lastIndex` equivalent to a comparison against the
pre-step high-water mark; and on previous keys `[a,b,c]` with node counts
`[1,1,1]` and next keys `[c,a,b]`, the engine emits exactly two MOVE records
(`a` to index 1, `b` to index 2) and no INSERT/REMOVE records. -/
theorem c1_move_iff_highwater :
    (∀ (nodeID idPref : String) (st : P2State) (name : String) (pc nc : Component),
      alookup st.children name = some pc → pc.ctor = nc.ctor →
      (((updateStep nodeID idPref st (name, nc)).recs =
          st.recs ++ [moveRec nodeID pc.nodeCount (mountIndexD pc) st.nextIndex])
        ↔ mountIndexD pc < st.lastIndex)
      ∧ (((updateStep nodeID idPref st (name, nc)).recs = st.recs)
        ↔ ¬ mountIndexD pc < st.lastIndex))
    ∧ recsOf (updateChildrenCore compABC "r." (some nextCAB) [] []) =
      [moveRec "r" 1 0 1, moveRec "r" 1 1 2] := by
  constructor
  · intro nodeID idPref st name pc nc hlook hctor
    have hmax : (mountIndexD pc < max (mountIndexD pc) st.lastIndex)
        ↔ mountIndexD pc < st.lastIndex := by
      constructor
      · intro h
        rcases lt_max_iff.mp h with h' | h'
        · exact absurd h' (lt_irrefl _)
        · exact h'
      · intro h
        exact lt_max_iff.mpr (Or.inr h)
    by_cases hlt : mountIndexD pc < st.lastIndex
    · have hcond : mountIndexD pc < max (mountIndexD pc) st.lastIndex := hmax.mpr hlt
      constructor
      · simp only [updateStep, hlook, hctor, if_pos rfl, if_pos hcond]
        exact iff_of_true rfl hlt
      · simp only [updateStep, hlook, hctor, if_pos rfl, if_pos hcond]
        constructor
        · intro h
          have := congrArg List.length h
          simp at this
        · intro h
          exact absurd hlt h
    · have hcond : ¬ mountIndexD pc < max (mountIndexD pc) st.lastIndex := fun h => hlt (hmax.mp h)
      constructor
      · simp only [updateStep, hlook, hctor, if_pos rfl, if_neg hcond]
        constructor
        · intro h
          have := congrArg List.length h
          simp at this
        · intro h
          exact absurd h hlt
      · simp only [updateStep, hlook, hctor, if_pos rfl, if_neg hcond]
        exact iff_of_true rfl hlt
  · decide

/-- Witness for C1 at a concrete reachable state (previous position 0,
high-water mark 2) and the concrete `[a,b,c] → [c,a,b]` run. -/
theorem c1_move_iff_highwater_witness :
    (((updateStep "r" "r." stC1W ("a", mkComp 9 0 1 "")).recs =
        stC1W.recs ++ [moveRec "r" 1 0 1])
      ↔ mountIndexD (mkComp 1 0 1 "r.a") < stC1W.lastIndex)
    ∧ recsOf (updateChildrenCore compABC "r." (some nextCAB) [] []) =
      [moveRec "r" 1 0 1, moveRec "r" 1 1 2] :=
  ⟨(c1_move_iff_highwater.1 "r" "r." stC1W "a" (mkComp 1 0 1 "r.a") (mkComp 9 0 1 "")
      (by decide) (by decide)).1,
    c1_move_iff_highwater.2⟩

/-! ## C2 — mount-index assignment -/

/-- C2 counterexample: `mountChildren` does not assign `mountIndex` at all —
after mounting the two-child map `[a ↦ nodeCount 1, b ↦ nodeCount 1]`, child
`a`'s `mountIndex` is still unassigned (`none`), not the running total `0`
the claim requires. -/
theorem c2_counterexample :
    (alookup (mountChildren compM "p." [("a", mkComp 1 0 1 ""), ("b", mkComp 2 0 1 "")]).1.renderedChildrenD
        "a").map Component.mountIndex ≠ some (some 0)
    ∧ (alookup (mountChildren compM "p." [("a", mkComp 1 0 1 ""), ("b", mkComp 2 0 1 "")]).1.renderedChildrenD
        "a").map Component.mountIndex = some none := by
  decide

theorem mountChildrenGo_entries (idPref : String) :
    ∀ (l : List (String × Component)) (lc : Option Component) (idx : Nat),
      (mountChildrenGo idPref l lc idx).1.map (fun p => (p.1, p.2.mountIndex))
        = l.map (fun p => (p.1, p.2.mountIndex))
  | [], _, _ => rfl
  | (n, c) :: t, lc, idx => by
    simp [mountChildrenGo, mountChildrenGo_entries idPref t]

theorem mountChildrenGo_total (idPref : String) :
    ∀ (l : List (String × Component)) (lc : Option Component) (idx : Nat),
      (mountChildrenGo idPref l lc idx).2.2.2.1 = idx + totalNodeCount l
  | [], _, idx => by simp [mountChildrenGo, totalNodeCount]
  | (n, c) :: t, lc, idx => by
    simp [mountChildrenGo, totalNodeCount, mountChildrenGo_total idPref t]
    omega

theorem assignMountIndices_spec :
    ∀ (l : List (String × Component)) (acc : Nat),
      (assignMountIndices l acc).map (fun p => p.2.mountIndex)
        = (prefixPositions acc (l.map (fun p => p.2.nodeCount))).map some
  | [], _ => rfl
  | (n, c) :: t, acc => by
    simp [assignMountIndices, prefixPositions, assignMountIndices_spec t]

theorem strictInc_prefixPositions :
    ∀ (counts : List Nat) (acc : Nat), (∀ c ∈ counts, 0 < c) →
      strictIncB (prefixPositions acc counts) = true
  | [], _, _ => rfl
  | [c], _, _ => rfl
  | c :: c2 :: t, acc, h => by
    have h1 : 0 < c := h c (by simp)
    have ih := strictInc_prefixPositions (c2 :: t) (acc + c) (fun x hx => h x (by simp [hx]))
    show (decide (acc < acc + c) && strictIncB (prefixPositions (acc + c) (c2 :: t))) = true
    rw [ih]
    simp
    omega

/-- C2 amended: `mountChildren` itself assigns no `mountIndex` — it leaves
every child's `mountIndex` exactly as it was and computes the running
nodeCount total only to set the parent's own `nodeCount` (when `idPrefix`
equals the parent's root id); the prefix-sum mount-index assignment instead
happens in the first pass of `updateChildren` over the previous children,
which assigns each child the running total of its preceding siblings'
`nodeCount` values — a strictly increasing sequence whenever all node counts
are positive. -/
theorem c2_amended :
    (∀ (comp : ParentComponent) (idPref : String) (l : List (String × Component)),
      ((mountChildren comp idPref l).1.renderedChildrenD).map (fun p => (p.1, p.2.mountIndex))
        = l.map (fun p => (p.1, p.2.mountIndex)))
    ∧ (∀ (comp : ParentComponent) (idPref : String) (l : List (String × Component)),
      comp.rootNodeID = idPref →
      (mountChildren comp idPref l).1.nodeCount = some (totalNodeCount l))
    ∧ (∀ (l : List (String × Component)) (acc : Nat),
      (assignMountIndices l acc).map (fun p => p.2.mountIndex)
        = (prefixPositions acc (l.map (fun p => p.2.nodeCount))).map some)
    ∧ (∀ (acc : Nat) (counts : List Nat), (∀ c ∈ counts, 0 < c) →
      strictIncB (prefixPositions acc counts) = true) := by
  refine ⟨?_, ?_, ?_, ?_⟩
  · intro comp idPref l
    simp [mountChildren, ParentComponent.renderedChildrenD, mountChildrenGo_entries]
  · intro comp idPref l h
    simp [mountChildren, h, mountChildrenGo_total]
  · intro l acc
    exact assignMountIndices_spec l acc
  · intro acc counts h
    exact strictInc_prefixPositions counts acc h

/-- Witness for C2's amended statement at concrete inputs. -/
theorem c2_amended_witness :
    (mountChildren compM "p" [("a", mkComp 1 0 2 "")]).1.nodeCount
        = some (totalNodeCount [("a", mkComp 1 0 2 "")])
    ∧ strictIncB (prefixPositions 0 [1, 2, 3]) = true :=
  ⟨c2_amended.2.1 compM "p" [("a", mkComp 1 0 2 "")] (by decide),
    c2_amended.2.2.2 0 [1, 2, 3] (by decide)⟩

/-! ## C3 — type mismatch under a shared key: REMOVE then INSERT, and the
INSERT `toIndex` bug -/

/-- C3 evaluated at the failing input (previous `{x: TypeA}`, next
`{x: TypeB}`): the engine emits exactly one REMOVE_NODE followed by exactly
one INSERT_MARKUP and never calls `receiveProps` — but the INSERT's
destination index is the fresh child's unassigned `mountIndex` (`none`),
not the current `nextIndex` (`0`): `_mountChildByNameAtIndex`
(lines 517–532) ignores its documented `index` parameter and `createChild`
(line 478) enqueues at `child._mountIndex`, which nothing assigned. -/
theorem c3_insert_index_bug :
    recsOf (updateChildrenCore compC3 "r." (some nextC3) [] [])
        = [removeRec "r" 1 0, insertRec "r" 0 none]
    ∧ eventsOf (updateChildrenCore compC3 "r." (some nextC3) [] [])
        = [ChildEvent.unmounted "x", ChildEvent.mounted "x"]
    ∧ (insertRec "r" 0 none).toIndex ≠ some 0 := by
  decide

/-! ## C4 — root replacement -/

/-- C4: when the addressable output-node identifier resolves to the empty
string, `updateChildren` works on the sole previous/next pair under the
empty key: if `shouldUpdateChild` fails, it unmounts the previous child,
mounts the next child under the component's own root identifier and emits
exactly one REPLACE_WITH_MARKUP record (addressed at the previous child's
root id) — no MOVE_EXISTING, REMOVE_NODE or INSERT_MARKUP records; if
`shouldUpdateChild` holds, only `receiveProps` is invoked and no record at
all is emitted. -/
theorem c4_root_replacement :
    ∀ (comp : ParentComponent) (idPref : String) (pl nl : List (String × Component))
      (pc nc : Component) (cc : List (List Nat)) (anc : List (String × Int)),
      (if lastCharIsDot idPref then comp.rootNodeID else getParentID comp.rootNodeID) = "" →
      comp.renderedChildren = some pl →
      alookup pl "" = some pc →
      alookup nl "" = some nc →
      (pc.ctor ≠ nc.ctor →
        updateChildrenCore comp idPref (some nl) cc anc =
          Except.ok
            { component := { comp with renderedChildren := some (aupsert pl "" nc) },
              records := [replaceRec pc.rootNodeID 0],
              markups := [mountImage nc comp.rootNodeID],
              events := [ChildEvent.unmounted "", ChildEvent.mounted ""],
              ancestors := anc, nextIndex := 0 })
      ∧ (pc.ctor = nc.ctor →
        updateChildrenCore comp idPref (some nl) cc anc =
          Except.ok
            { component := { comp with renderedChildren := some (aupsert pl "" { pc with props := nc.props }) },
              records := [], markups := [],
              events := [ChildEvent.receivedProps ""],
              ancestors := anc, nextIndex := 0 }) := by
  intro comp idPref pl nl pc nc cc anc hid hprev hpc hnc
  constructor
  · intro hne
    simp [updateChildrenCore, hid, hprev, hpc, hnc, hne]
  · intro heq
    simp [updateChildrenCore, hid, hprev, hpc, hnc, heq]

/-- Witness for C4: replacing the sole root child (constructor 0 → 5)
produces exactly one REPLACE_WITH_MARKUP record. -/
theorem c4_root_replacement_witness :
    updateChildrenCore compRoot ".0" (some [("", mkComp 2 5 1 "")]) [] [] =
      Except.ok
        { component :=
            { compRoot with
              renderedChildren := some (aupsert [("", mkComp 1 0 1 ".0")] "" (mkComp 2 5 1 "")) },
          records := [replaceRec (mkComp 1 0 1 ".0").rootNodeID 0],
          markups := [mountImage (mkComp 2 5 1 "") compRoot.rootNodeID],
          events := [ChildEvent.unmounted "", ChildEvent.mounted ""],
          ancestors := [], nextIndex := 0 } :=
  (c4_root_replacement compRoot ".0" [("", mkComp 1 0 1 ".0")] [("", mkComp 2 5 1 "")]
      (mkComp 1 0 1 ".0") (mkComp 2 5 1 "") [] []
      (by decide) (by decide) (by decide) (by decide)).1 (by decide)

/-! ## C5 — node-count propagation, and C9 — reuse preserves identity -/

theorem updateStep_children_ne (nodeID idPref : String) (st : P2State)
    (n : String) (c : Component) (k : String) (h : k ≠ n) :
    alookup (updateStep nodeID idPref st (n, c)).children k = alookup st.children k := by
  simp only [updateStep, mountNewChild]
  cases hl : alookup st.children n with
  | none => simp [alookup_aupsert_ne _ _ _ _ h]
  | some pc =>
    by_cases hc : pc.ctor = c.ctor
    · simp [hc, alookup_aupsert_ne _ _ _ _ h]
    · simp [hc, alookup_aupsert_ne _ _ _ _ h, alookup_aerase_ne _ _ _ h]

theorem updateStep_events_names (nodeID idPref : String) (st : P2State)
    (n : String) (c : Component) :
    ∃ es, (updateStep nodeID idPref st (n, c)).events = st.events ++ es
      ∧ ∀ e ∈ es, eventName e = n := by
  simp only [updateStep, mountNewChild]
  cases hl : alookup st.children n with
  | none =>
    refine ⟨[ChildEvent.mounted n], rfl, ?_⟩
    simp [eventName]
  | some pc =>
    by_cases hc : pc.ctor = c.ctor
    · simp only [hc, if_pos rfl]
      exact ⟨[ChildEvent.receivedProps n], rfl, by simp [eventName]⟩
    · simp only [hc, if_neg hc]
      refine ⟨[ChildEvent.unmounted n, ChildEvent.mounted n], by simp, ?_⟩
      intro e he
      simp only [List.mem_cons, List.not_mem_nil, or_false] at he
      rcases he with rfl | rfl <;> rfl

theorem updateStep_nextIndex (nodeID idPref : String) (st : P2State)
    (n : String) (c : Component) :
    (updateStep nodeID idPref st (n, c)).nextIndex = st.nextIndex + reuseCount st.children n c := by
  simp only [updateStep, mountNewChild, reuseCount]
  cases hl : alookup st.children n with
  | none => simp
  | some pc =>
    by_cases hc : pc.ctor = c.ctor
    · simp [hc]
    · simp [hc]

theorem filterName_eq_nil {k n : String} (h : n ≠ k) :
    ∀ es : List ChildEvent, (∀ e ∈ es, eventName e = n) →
      es.filter (fun e => eventName e = k) = []
  | [], _ => rfl
  | e :: t, hall => by
    have he := hall e (by simp)
    have : ¬ (eventName e = k) := by rw [he]; exact h
    simp only [List.filter_cons, this, decide_False]
    exact filterName_eq_nil h t (fun x hx => hall x (by simp [hx]))

theorem runPass2_append (nodeID idPref : String) :
    ∀ (xs ys : List (String × Component)) (st : P2State),
      runPass2 nodeID idPref (xs ++ ys) st = runPass2 nodeID idPref ys (runPass2 nodeID idPref xs st)
  | [], ys, st => rfl
  | x :: t, ys, st => by
    simp only [List.cons_append, runPass2]
    exact runPass2_append nodeID idPref t ys _

theorem runPass2_other (nodeID idPref k : String) :
    ∀ (l : List (String × Component)) (st : P2State), k ∉ l.map Prod.fst →
      alookup (runPass2 nodeID idPref l st).children k = alookup st.children k
      ∧ (runPass2 nodeID idPref l st).events.filter (fun e => eventName e = k)
          = st.events.filter (fun e => eventName e = k)
  | [], st, _ => ⟨rfl, rfl⟩
  | (n, c) :: t, st, hk => by
    have hkn : k ≠ n := by
      intro h
      exact hk (by simp [h])
    have hkt : k ∉ t.map Prod.fst := by
      intro h
      exact hk (by simp [h])
    have ih := runPass2_other nodeID idPref k t (updateStep nodeID idPref st (n, c)) hkt
    simp only [runPass2]
    refine ⟨?_, ?_⟩
    · rw [ih.1, updateStep_children_ne nodeID idPref st n c k hkn]
    · rw [ih.2]
      obtain ⟨es, hes, hnames⟩ := updateStep_events_names nodeID idPref st n c
      rw [hes, List.filter_append, filterName_eq_nil (Ne.symm hkn) es hnames, List.append_nil]

theorem runPass2_nextIndex (nodeID idPref : String) :
    ∀ (l : List (String × Component)) (st : P2State) (prev0 : List (String × Component)),
      (∀ m ∈ l.map Prod.fst, alookup st.children m = alookup prev0 m) →
      (l.map Prod.fst).Nodup →
      (runPass2 nodeID idPref l st).nextIndex = st.nextIndex + expectedNextIndex prev0 l
  | [], st, prev0, _, _ => by simp [runPass2, expectedNextIndex]
  | (n, c) :: t, st, prev0, hinv, hnd => by
    simp only [runPass2, List.map_cons] at hnd ⊢
    have hn : alookup st.children n = alookup prev0 n := hinv n (by simp)
    have hnd2 := (List.nodup_cons.mp hnd).2
    have hnotin := (List.nodup_cons.mp hnd).1
    have hinv2 : ∀ m ∈ t.map Prod.fst,
        alookup (updateStep nodeID idPref st (n, c)).children m = alookup prev0 m := by
      intro m hm
      have hmn : m ≠ n := by
        intro h
        exact hnotin (h ▸ hm)
      rw [updateStep_children_ne nodeID idPref st n c m hmn]
      exact hinv m (by simp [hm])
    rw [runPass2_nextIndex nodeID idPref t _ prev0 hinv2 hnd2]
    rw [updateStep_nextIndex]
    simp only [expectedNextIndex, reuseCount, hn]
    omega

theorem removePass_nextIndex (nodeID : String) (nextL : List (String × Component)) :
    ∀ (snap : List (String × Component)) (st : P2State),
      (removePass nodeID nextL snap st).nextIndex = st.nextIndex
  | [], st => rfl
  | (n, c) :: t, st => by
    simp only [removePass]
    by_cases h : (alookup nextL n).isSome
    · rw [if_pos h]
      exact removePass_nextIndex nodeID nextL t st
    · rw [if_neg h]
      exact removePass_nextIndex nodeID nextL t _

theorem removePass_keep (nodeID k : String) (nextL : List (String × Component))
    (hk : (alookup nextL k).isSome) :
    ∀ (snap : List (String × Component)) (st : P2State),
      alookup (removePass nodeID nextL snap st).children k = alookup st.children k
      ∧ (removePass nodeID nextL snap st).events.filter (fun e => eventName e = k)
          = st.events.filter (fun e => eventName e = k)
  | [], st => ⟨rfl, rfl⟩
  | (n, c) :: t, st => by
    simp only [removePass]
    by_cases h : (alookup nextL n).isSome
    · rw [if_pos h]
      exact removePass_keep nodeID k nextL hk t st
    · rw [if_neg h]
      have hkn : k ≠ n := by
        intro he
        subst he
        exact h hk
      have ih := removePass_keep nodeID k nextL hk t
        ({ st with
            children := aerase st.children n,
            recs := st.recs ++ [removeRec nodeID c.nodeCount (mountIndexD c)],
            events := st.events ++ [ChildEvent.unmounted n] })
      refine ⟨?_, ?_⟩
      · rw [ih.1]
        simp only
        rw [alookup_aerase_ne _ _ _ hkn]
      · rw [ih.2]
        simp only [List.filter_append]
        have : eventName (ChildEvent.unmounted n) ≠ k := Ne.symm hkn
        simp [this]

theorem alookup_split {α : Type} :
    ∀ (l : List (String × α)) (k : String) (v : α), alookup l k = some v →
      ∃ l1 l2, l = l1 ++ (k, v) :: l2 ∧ k ∉ l1.map Prod.fst
  | [], k, v, h => by simp [alookup] at h
  | (m, w) :: t, k, v, h => by
    by_cases hm : m = k
    · subst hm
      simp [alookup] at h
      subst h
      exact ⟨[], t, rfl, by simp⟩
    · simp only [alookup, if_neg hm] at h
      obtain ⟨l1, l2, heq, hnot⟩ := alookup_split t k v h
      refine ⟨(m, w) :: l1, l2, by simp [heq], ?_⟩
      simp only [List.map_cons, List.mem_cons]
      rintro (h' | h')
      · exact hm h'.symm
      · exact hnot h'

theorem assign_lookup :
    ∀ (l : List (String × Component)) (acc : Nat) (k : String) (pc : Component),
      alookup l k = some pc →
      ∃ mi, alookup (assignMountIndices l acc) k = some { pc with mountIndex := some mi }
  | [], _, k, pc, h => by simp [alookup] at h
  | (m, w) :: t, acc, k, pc, h => by
    by_cases hm : m = k
    · subst hm
      simp [alookup] at h
      subst h
      exact ⟨acc, by simp [assignMountIndices, alookup]⟩
    · simp only [alookup, if_neg hm] at h
      obtain ⟨mi, hmi⟩ := assign_lookup t (acc + w.nodeCount) k pc h
      exact ⟨mi, by simp [assignMountIndices, alookup, hm, hmi]⟩

theorem reuseCount_assign :
    ∀ (l : List (String × Component)) (acc : Nat) (n : String) (c : Component),
      reuseCount (assignMountIndices l acc) n c = reuseCount l n c
  | [], _, _, _ => rfl
  | (m, w) :: t, acc, n, c => by
    by_cases hm : m = n
    · subst hm
      simp [reuseCount, assignMountIndices, alookup]
    · simp only [reuseCount, assignMountIndices, alookup, if_neg hm]
      exact reuseCount_assign t (acc + w.nodeCount) n c

theorem expectedNextIndex_assign (l : List (String × Component)) (acc : Nat) :
    ∀ nl : List (String × Component),
      expectedNextIndex (assignMountIndices l acc) nl = expectedNextIndex l nl
  | [] => rfl
  | (n, c) :: t => by
    simp only [expectedNextIndex, reuseCount_assign l acc n c,
      expectedNextIndex_assign l acc t]

theorem propagate_split (nodeID : String) (diff : Int) :
    ∀ (below : List (String × Int)) (c0 : Int) (above : List (String × Int)),
      (∀ x ∈ below, x.1 ≠ nodeID) →
      propagateNodeCountDiff nodeID diff (below ++ (nodeID, c0) :: above) =
        below.map (fun p => (p.1, p.2 + diff)) ++ (nodeID, c0) :: above
  | [], c0, above, _ => by simp [propagateNodeCountDiff]
  | (rid, c) :: t, c0, above, h => by
    have hr : rid ≠ nodeID := h (rid, c) (by simp)
    have ih := propagate_split nodeID diff t c0 above (fun x hx => h x (by simp [hx]))
    simp only [List.cons_append, propagateNodeCountDiff, if_neg hr, List.map_cons,
      List.append_eq] at ih ⊢
    rw [ih]

/-- C5: after the general case of `updateChildren` completes, the parent's
`nodeCount` equals the final `nextIndex` (the sum of the mounted next
children's `nodeCount` values, `expectedNextIndex`), every ancestor strictly
below the addressable node's owner has its `nodeCount` changed by exactly
`nextIndex` minus the parent's old `nodeCount`, and the owner and everything
above it are unchanged. -/
theorem c5_nodecount_propagation :
    ∀ (comp : ParentComponent) (idPref : String) (nl : List (String × Component))
      (chainCounts : List (List Nat)) (below above : List (String × Int)) (c0 : Int),
      lastCharIsDot idPref = true →
      comp.rootNodeID ≠ "" →
      (chainCounts.map List.sum).sum = 0 →
      (nl.map Prod.fst).Nodup →
      (∀ x ∈ below, x.1 ≠ comp.rootNodeID) →
      ∃ r, updateChildrenCore comp idPref (some nl) chainCounts
            (below ++ (comp.rootNodeID, c0) :: above) = Except.ok r
        ∧ r.component.nodeCount = some r.nextIndex
        ∧ r.nextIndex = expectedNextIndex comp.renderedChildrenD nl
        ∧ r.ancestors =
            below.map (fun p =>
              (p.1, p.2 + ((r.nextIndex : Int) - ((comp.nodeCount.getD 0 : Nat) : Int))))
              ++ (comp.rootNodeID, c0) :: above := by
  intro comp idPref nl chainCounts below above c0 hdot hroot hsum hnodup hbelow
  simp only [updateChildrenCore, hdot, if_true, if_neg hroot, Option.isNone_some,
    Bool.and_false, Bool.false_eq_true, if_false, hsum, if_pos rfl, Option.getD_some]
  refine ⟨_, rfl, rfl, ?_, ?_⟩
  · simp only
    rw [removePass_nextIndex, runPass2_nextIndex comp.rootNodeID idPref nl _
      (assignMountIndices comp.renderedChildrenD 0) (fun m _ => rfl) hnodup]
    simp [expectedNextIndex_assign]
  · simp only
    rw [removePass_nextIndex, runPass2_nextIndex comp.rootNodeID idPref nl _
      (assignMountIndices comp.renderedChildrenD 0) (fun m _ => rfl) hnodup]
    rw [propagate_split comp.rootNodeID _ below c0 above hbelow]

/-- Witness for C5: concrete ancestors `[mid, r(owner), top]` around the
`[a,b,c] → [c,a,b]` run. -/
theorem c5_nodecount_propagation_witness :
    ∃ r, updateChildrenCore compABC "r." (some nextCAB) []
          ([("mid", (5 : Int))] ++ (compABC.rootNodeID, (3 : Int)) :: [("top", (9 : Int))]) =
        Except.ok r
      ∧ r.component.nodeCount = some r.nextIndex
      ∧ r.nextIndex = expectedNextIndex compABC.renderedChildrenD nextCAB
      ∧ r.ancestors =
          [("mid", (5 : Int))].map (fun p =>
            (p.1, p.2 + ((r.nextIndex : Int) - ((compABC.nodeCount.getD 0 : Nat) : Int))))
            ++ (compABC.rootNodeID, (3 : Int)) :: [("top", (9 : Int))] :=
  c5_nodecount_propagation compABC "r." nextCAB [] [("mid", (5 : Int))] [("top", (9 : Int))] 3
    (by decide) (by decide) (by decide) (by decide) (by decide)

theorem updateStep_reuse (nodeID idPref : String) (st : P2State) (n : String)
    (pc nc : Component) (hl : alookup st.children n = some pc) (hc : pc.ctor = nc.ctor) :
    (updateStep nodeID idPref st (n, nc)).children
        = aupsert st.children n
            { pc with props := nc.props, prevSibling := st.lastChild.map Component.cid }
      ∧ (updateStep nodeID idPref st (n, nc)).events
        = st.events ++ [ChildEvent.receivedProps n] := by
  simp [updateStep, hl, hc]

theorem pass_reuse_tracking (nodeID idPref k : String) (nc pcA : Component)
    (l1 l2 : List (String × Component)) (st0 : P2State)
    (hk1 : k ∉ l1.map Prod.fst) (hk2 : k ∉ l2.map Prod.fst)
    (hl : alookup st0.children k = some pcA) (hctor : pcA.ctor = nc.ctor)
    (hev : st0.events.filter (fun e => eventName e = k) = []) :
    ∃ pcf, alookup (runPass2 nodeID idPref (l1 ++ (k, nc) :: l2) st0).children k = some pcf
      ∧ pcf.cid = pcA.cid ∧ pcf.ctor = pcA.ctor
      ∧ (runPass2 nodeID idPref (l1 ++ (k, nc) :: l2) st0).events.filter
          (fun e => eventName e = k) = [ChildEvent.receivedProps k] := by
  rw [runPass2_append]
  have h1 := runPass2_other nodeID idPref k l1 st0 hk1
  have hlook1 : alookup (runPass2 nodeID idPref l1 st0).children k = some pcA := by
    rw [h1.1, hl]
  have hreuse := updateStep_reuse nodeID idPref (runPass2 nodeID idPref l1 st0) k pcA nc hlook1 hctor
  simp only [runPass2]
  have h2 := runPass2_other nodeID idPref k l2
    (updateStep nodeID idPref (runPass2 nodeID idPref l1 st0) (k, nc)) hk2
  refine ⟨({ pcA with
      props := nc.props,
      prevSibling := (runPass2 nodeID idPref l1 st0).lastChild.map Component.cid }),
    ?_, rfl, rfl, ?_⟩
  · rw [h2.1, hreuse.1, alookup_aupsert_self]
  · rw [h2.2, hreuse.2, List.filter_append, h1.2, hev]
    simp [eventName]

/-- C9: when a key is present in both maps and `shouldUpdateChild` holds,
`updateChildren` preserves the previous child instance's identity — it stays
the value under its key in the rendered-children map (same `cid`, same
constructor; only props and positional bookkeeping fields change), it is
never unmounted or remounted, and the only child capability invoked on it is
`receiveProps` (the event trace filtered to its key is exactly one
`receivedProps`). -/
theorem c9_reuse_identity :
    ∀ (comp : ParentComponent) (idPref : String) (nl : List (String × Component))
      (chainCounts : List (List Nat)) (anc : List (String × Int))
      (k : String) (pc nc : Component),
      lastCharIsDot idPref = true →
      comp.rootNodeID ≠ "" →
      (chainCounts.map List.sum).sum = 0 →
      (nl.map Prod.fst).Nodup →
      alookup comp.renderedChildrenD k = some pc →
      alookup nl k = some nc →
      pc.ctor = nc.ctor →
      ∃ r pcf, updateChildrenCore comp idPref (some nl) chainCounts anc = Except.ok r
        ∧ alookup r.component.renderedChildrenD k = some pcf
        ∧ pcf.cid = pc.cid ∧ pcf.ctor = pc.ctor
        ∧ r.events.filter (fun e => eventName e = k) = [ChildEvent.receivedProps k] := by
  intro comp idPref nl chainCounts anc k pc nc hdot hroot hsum hnodup hpc hnext hctor
  obtain ⟨mi, hmi⟩ := assign_lookup comp.renderedChildrenD 0 k pc hpc
  obtain ⟨l1, l2, hnl, hk1⟩ := alookup_split nl k nc hnext
  have hk2 : k ∉ l2.map Prod.fst := by
    subst hnl
    simp only [List.map_append, List.map_cons] at hnodup
    have h2 := (List.nodup_append.mp hnodup).2.1
    exact (List.nodup_cons.mp h2).1
  have hisSome : (alookup nl k).isSome := by rw [hnext]; rfl
  subst hnl
  simp only [updateChildrenCore, hdot, if_true, if_neg hroot, Option.isNone_some,
    Bool.and_false, Bool.false_eq_true, if_false, hsum, if_pos rfl, Option.getD_some]
  set st0 : P2State := { children := assignMountIndices comp.renderedChildrenD 0, recs := [], marks := [], events := [], nextIndex := 0, lastIndex := 0, lastChild := none, firstChild := comp.firstRenderedChild } with hst0
  obtain ⟨pcf, hlook, hcid, hct, hevs⟩ :=
    pass_reuse_tracking comp.rootNodeID idPref k nc ({ pc with mountIndex := some mi })
      l1 l2 st0 hk1 hk2 hmi hctor rfl
  have hkeep := removePass_keep comp.rootNodeID k (l1 ++ (k, nc) :: l2) hisSome
    (runPass2 comp.rootNodeID idPref (l1 ++ (k, nc) :: l2) st0).children
    (runPass2 comp.rootNodeID idPref (l1 ++ (k, nc) :: l2) st0)
  refine ⟨_, pcf, rfl, ?_, hcid, hct, ?_⟩
  · simp only [ParentComponent.renderedChildrenD, Option.getD_some]
    rw [hkeep.1, hlook]
  · rw [hkeep.2, hevs]

/-- Witness for C9: in the `[a,b,c] → [c,a,b]` run, child `a` is reused —
same instance identity under the key, and its only event is one
`receivedProps`. -/
theorem c9_reuse_identity_witness :
    ∃ r pcf, updateChildrenCore compABC "r." (some nextCAB) [] [] = Except.ok r
      ∧ alookup r.component.renderedChildrenD "a" = some pcf
      ∧ pcf.cid = (mkComp 1 0 1 "r.a").cid ∧ pcf.ctor = (mkComp 1 0 1 "r.a").ctor
      ∧ r.events.filter (fun e => eventName e = "a") = [ChildEvent.receivedProps "a"] :=
  c9_reuse_identity compABC "r." nextCAB [] [] "a" (mkComp 1 0 1 "r.a") (mkComp 11 0 1 "")
    (by decide) (by decide) (by decide) (by decide) (by decide) (by decide) (by decide)

/-! ## C10 — the two engines diverge on INSERT records -/

/-- C10 evaluated at the failing input (unit node counts, empty previous
state, one inserted child): the unit-index engine of `src/unnamed/part_000`
emits INSERT with `toIndex = 0` (`_mountChildByNameAtIndex` there assigns
`child._mountIndex = index` before `createChild`), while the
nodeCount-tracking engine emits INSERT with `toIndex = none` — so the two
engines do not agree on `toIndex` values, contrary to the claim. -/
theorem c10_insert_divergence :
    (uUpdateChildren compC10 "r" "r." (some nextC10)).recs = [uInsertRec "r" 0 (some 0)]
    ∧ recsOf (updateChildrenCore compC10 "r." (some nextC10) [] []) = [insertRec "r" 0 none]
    ∧ (insertRec "r" 0 none).toIndex ≠ (uInsertRec "r" 0 (some 0)).toIndex := by
  decide

end ReactMultiChild
